import Mathlib

/-!
Verification development for the `pkg/stream` package of koss-null/lambda
(`src/pkg/stream/stream.go`).

The package builds a lazy pipeline over an in-memory slice: registration
calls (`Skip`, `Trim`, `Map`, `Reduce`, `Filter`, `Sorted`, `Split`, `Go`)
accumulate stages on a `stream` value, and terminal calls
(`Slice`, `Any`, `None`, `Count`, `Sum`, `Contains`) trigger execution.

The embedding below follows the source closely.  Facts of the source that
drive the model:

* the field `st.fns` (where `Skip`, `Trim`, `Reduce`, `Filter`, `Sorted`,
  `Slice` and `Sum` register their closures) is appended to and never read
  anywhere in the package, even though the comment on `run` (line 254)
  says "run start executing st.fns"; the registered closures therefore
  never execute;
* only `Map` appends to `st.ops`; `addTasks` (line 228) unconditionally
  calls `nextOp` (line 215), which indexes `st.ops[st.opsIdx-1]` and hence
  faults with an index-out-of-range runtime error whenever the `ops` list
  is exhausted — in particular whenever no `Map` stage was registered;
* the `st.tasks` channel is never created (the constructor at line 90
  sets only `wrksCnt`, `dt` and `bm`), so it is a nil channel: a send on
  it blocks the calling goroutine forever.  Thus `addTasks` blocks at its
  first loop iteration whenever the compacted buffer is non-empty;
* on the one completing path (`ops` non-empty, buffer compacts to empty)
  `startWorkers` (line 262) spawns workers that block forever receiving
  from the nil channel; this has no main-thread-visible effect.

The main-thread behaviour of a terminal call is therefore deterministic
and is modelled by the `Outcome` type below: it returns a value, faults
with a runtime error, or blocks forever.

`internal/tools.Bitmask` and the `Operation` type (with `minSplitLen`)
belong to this repository but are not under `src/`; they are modelled
from the spec where indicated.
-/

set_option autoImplicit false
set_option linter.unusedVariables false

namespace Lambda

/-- Result of running a Go code path on the main goroutine: it returns a
value, faults with a runtime error carrying the Go error text, or blocks
forever (e.g. on a send to a nil channel). -/
inductive Outcome (α : Type) where
  | ok (a : α)
  | panicked (msg : String)
  | blocked

/-- Modelled from the spec (§3, §4.1): the liveness tracker
`internal/tools.Bitmask`, whose source is not under `src/`.  One flag per
index; `true` means the element at that index is still part of the
logical sequence.  `cursor` is the state of the one-shot forward cursor
used by `Next`. -/
structure Bitmask where
  flags : List Bool
  cursor : Nat

/-- Modelled from the spec: the empty tracker (`tools.Bitmask[T]{}`). -/
def Bitmask.empty : Bitmask := ⟨[], 0⟩

/-- Modelled from the spec (§4.1): get a single flag; indices outside the
domain read as dead. -/
def Bitmask.Get (bm : Bitmask) (i : Nat) : Bool :=
  bm.flags.getD i false

/-- Modelled from the spec (§4.1): `PutLine(lo,hi,v)` bulk-sets the range
of indices in the interval from lo inclusive to hi exclusive, extending
the domain when needed and keeping flags outside the range. -/
def Bitmask.PutLine (bm : Bitmask) (lo hi : Nat) (v : Bool) : Bitmask :=
  ⟨(List.range (max bm.flags.length hi)).map
      (fun i => if lo ≤ i ∧ i < hi then v else bm.Get i),
    bm.cursor⟩

/-- Modelled from the spec (§4.1): set a single flag. -/
def Bitmask.Put (bm : Bitmask) (i : Nat) (v : Bool) : Bitmask :=
  bm.PutLine i (i + 1) v

/-- Modelled from the spec (§4.1): `Apply(buffer)` compacts — returns a
new buffer containing exactly the live elements in original relative
order. -/
def Bitmask.Apply {T : Type} (bm : Bitmask) (dt : List T) : List T :=
  (dt.enum.filter (fun p => bm.Get p.1)).map (fun p => p.2)

/-- Modelled from the spec (§4.1): count the live flags. -/
def Bitmask.CountOnes (bm : Bitmask) : Nat :=
  (bm.flags.filter (fun b => b)).length

/-- Modelled from the spec (§4.1): the stateful one-shot forward cursor.
Returns the next live index at or after the cursor together with a
success flag, and advances the cursor. -/
def Bitmask.Next (bm : Bitmask) : (Nat × Bool) × Bitmask :=
  match (List.range bm.flags.length).find?
      (fun i => decide (bm.cursor ≤ i) && bm.Get i) with
  | Option.some i => ((i, true), ⟨bm.flags, i + 1⟩)
  | Option.none => ((0, false), ⟨bm.flags, bm.flags.length⟩)

/-- Modelled from the spec (§4.1): deep copy of a window, preserving the
global indexing of flags inside the window (the `Filter` closure at
stream.go line 163 reads the copy at global index `offset+i`); flags
outside the window read as dead. -/
def Bitmask.Copy (bm : Bitmask) (lo hi : Nat) : Bitmask :=
  ⟨(List.range hi).map (fun i => decide (lo ≤ i) && bm.Get i), 0⟩

/-- Modelled from the spec (§4.1): a view over a window sharing backing
storage.  Aliasing is not observable on any code path settled here, so
the view is modelled by its window contents. -/
def Bitmask.ShallowCopy (bm : Bitmask) (lo hi : Nat) : Bitmask :=
  bm.Copy lo hi

/-- Helper for the border trims of §4.1: turn the first `n` live flags of
the list to dead, leaving the rest. -/
def clearFirstLive : List Bool → Nat → List Bool
  | [], _ => []
  | b :: l, n =>
    if n = 0 then b :: l
    else if b then false :: clearFirstLive l (n - 1)
    else b :: clearFirstLive l n

/-- Modelled from the spec (§4.1): `CaSBorder` clears the first `n` live
flags (border trim from the front).  The source only ever calls it as
`CaSBorder(0, true, n)` (stream.go line 110) and discards the returned
boolean, so only the state effect is modelled. -/
def Bitmask.CaSBorder (bm : Bitmask) (side : Nat) (v : Bool) (n : Nat) : Bitmask :=
  ⟨clearFirstLive bm.flags n, bm.cursor⟩

/-- Modelled from the spec (§4.1): the backward border trim clears the
last `n` live flags (stream.go line 124). -/
def Bitmask.CaSBorderBw (bm : Bitmask) (n : Nat) : Bitmask :=
  ⟨(clearFirstLive bm.flags.reverse n).reverse, bm.cursor⟩

/-- Modelled from the spec (§3): one pipeline stage, `Operation[T]` of
the stream package (its file is not under `src/`): an identity token
(uuid, modelled as a natural-number token), the mode flag `sync`
(`true` = barrier stage), and the transform applied to a data window and
its tracker. -/
structure Operation (T : Type) where
  id : Nat
  sync : Bool
  fn : List T → Bitmask → List T × Bitmask

/-- Modelled from the spec (§3): `Sync()` exposes the mode flag. -/
def Operation.Sync {T : Type} (op : Operation T) : Bool := op.sync

/-- Modelled from the spec (§3): `Do` applies the transform. -/
def Operation.Do {T : Type} (op : Operation T) (dt : List T) (bm : Bitmask) :
    List T × Bitmask :=
  op.fn dt bm

/-- Modelled from the spec (§4.3): the configured minimum block size of
the partitioning policy.  Its exact value is not under `src/` and is
irrelevant to every settled code path (the first send on the nil task
channel blocks before any partition boundary matters). -/
def minSplitLen : Nat := 1

/-- The partitioning policy of `addTasks` (stream.go lines 232-236):
block size is the larger of the configured minimum (capped by the data
length) and data length divided by worker count. -/
def blockSize (dataLen wrks : Nat) : Nat :=
  let bs := min minSplitLen dataLen
  if dataLen / wrks > bs then dataLen / wrks else bs

/-- A closure registered on the write-only `st.fns` list, identified by
the registration call and its captured parameters (stream.go lines
103-204, 303-328, 346-363).  No code in the package ever reads `st.fns`,
so these closures never execute; the list is still tracked faithfully. -/
inductive RegFn (T : Type) where
  | skipFn (n : Nat)
  | trimFn (n : Nat)
  | reduceFn (f : T → T → T)
  | filterFn (p : T → Bool)
  | sortedChunk (less : T → T → Bool)
  | sortedFull (less : T → T → Bool)
  | sliceCollect
  | sumFold (f : Int → T → Int)

/-- The `stream[T]` struct (stream.go lines 24-45), restricted to the
fields observable by the main goroutine.  `ran` is the done flag of
`onceRun` (set even when the guarded body faults); `runs` counts how many
times the body of `onceRun.Do` has executed (0 or 1).  The nil `tasks`
channel, the mutexes and the never-populated `done` map need no fields:
their effects are captured in `addTasks`, `runStream` and
`workerSyncStep`. -/
structure StreamState (T : Type) where
  dt : List T
  bm : Bitmask
  ops : List (Operation T)
  opsIdx : Nat
  fns : List (RegFn T)
  wrksCnt : Nat
  ran : Bool
  runs : Nat

/-- `Stream(data)` (stream.go lines 90-96): copy the input, build a fully
live tracker over its length, one worker.  The `tasks` channel is left
nil. -/
def Stream {T : Type} (data : List T) : StreamState T :=
  { dt := data
    bm := Bitmask.empty.PutLine 0 data.length true
    ops := []
    opsIdx := 0
    fns := []
    wrksCnt := 1
    ran := false
    runs := 0 }

/-- `Skip(n)` (stream.go lines 103-115): appends a closure to the
write-only `fns` list and returns the receiver. -/
def Skip {T : Type} (n : Nat) (st : StreamState T) : StreamState T :=
  { st with fns := st.fns ++ [RegFn.skipFn n] }

/-- `Trim(n)` (stream.go lines 117-129). -/
def Trim {T : Type} (n : Nat) (st : StreamState T) : StreamState T :=
  { st with fns := st.fns ++ [RegFn.trimFn n] }

/-- The transform built by `Map` (stream.go lines 135-141): apply `f` in
place to every element whose tracker flag is live. -/
def mapOpFn {T : Type} (f : T → T) : List T → Bitmask → List T × Bitmask :=
  fun dt bm => (dt.enum.map (fun p => if bm.Get p.1 then f p.2 else p.2), bm)

/-- `Map(fn)` (stream.go lines 131-144): the only registration call that
appends to `st.ops`; the operation is not a barrier (`sync = false`) and
carries a fresh identity token (`uuid.New()`, modelled as a token fresh
among this stream's operations). -/
def Map {T : Type} (f : T → T) (st : StreamState T) : StreamState T :=
  { st with ops := st.ops ++ [⟨st.ops.length, false, mapOpFn f⟩] }

/-- `Reduce(fn)` (stream.go lines 146-158): appends a closure to the
write-only `fns` list. -/
def Reduce {T : Type} (f : T → T → T) (st : StreamState T) : StreamState T :=
  { st with fns := st.fns ++ [RegFn.reduceFn f] }

/-- `Filter(fn)` (stream.go lines 160-182): appends a closure to the
write-only `fns` list. -/
def Filter {T : Type} (p : T → Bool) (st : StreamState T) : StreamState T :=
  { st with fns := st.fns ++ [RegFn.filterFn p] }

/-- `Sorted(less)` (stream.go lines 186-204): appends two closures to the
write-only `fns` list, a per-chunk one and a whole-sequence one. -/
def Sorted {T : Type} (less : T → T → Bool) (st : StreamState T) : StreamState T :=
  { st with fns := st.fns ++ [RegFn.sortedChunk less, RegFn.sortedFull less] }

/-- The comparator closure the `Sorted` stage passes to `sort.Slice`
(stream.go lines 189 and 198): both arguments of `less` are the element
at index `j`; the index `i` is ignored, so the comparator compares an
element against itself. -/
def sortedComparator {T : Type} (less : T → T → Bool) (dt : List T) (dflt : T)
    (i j : Nat) : Bool :=
  less (dt.getD j dflt) (dt.getD j dflt)

/-- `Go(n)` (stream.go lines 206-208): the body is `return st`; the
argument is ignored and no field of the stream changes. -/
def Go {T : Type} (n : Nat) (st : StreamState T) : StreamState T :=
  st

/-- `Split(sp)` (stream.go lines 210-213): the body is a TODO comment and
`return st`; the argument is ignored, nothing is registered, and no
failure of any kind is signalled. -/
def Split {T : Type} (sp : T → List T) (st : StreamState T) : StreamState T :=
  st

/-- `addTasks` (stream.go lines 228-252) as observed by the calling
goroutine, in the source's order of effects: compact the buffer and reset
the tracker to fully live over the new length; evaluate the partitioning
policy, whose division faults if the worker count is zero; call `nextOp`
(lines 215-218), which faults with an index-out-of-range error when the
`ops` list is exhausted; then loop sending tasks into `st.tasks` — a nil
channel, so the first send blocks forever whenever the compacted buffer
is non-empty. -/
def addTasks {T : Type} (st : StreamState T) : Outcome (StreamState T) :=
  let dt2 := st.bm.Apply st.dt
  let bm2 := st.bm.PutLine 0 dt2.length true
  if st.wrksCnt = 0 then Outcome.panicked "integer divide by zero"
  else if st.opsIdx < st.ops.length then
    if dt2.length = 0 then
      Outcome.ok { st with dt := dt2, bm := bm2, opsIdx := st.opsIdx + 1 }
    else Outcome.blocked
  else Outcome.panicked "index out of range"

/-- `run` (stream.go lines 254-260): `onceRun.Do` runs
`addTasks; startWorkers` at most once; the done flag of `sync.Once` is
set even when the body faults.  On the completing path `startWorkers`
(lines 262-301) spawns `wrksCnt` goroutines that block forever receiving
from the nil `tasks` channel, with no main-thread-visible state change. -/
def runStream {T : Type} (st : StreamState T) : Outcome (StreamState T) :=
  if st.ran then Outcome.ok st
  else addTasks { st with ran := true, runs := st.runs + 1 }

/-- `Slice` (stream.go lines 303-328): appends a collecting closure to
the write-only `fns` list, runs the pipeline, and returns the local
`data` slice.  Because nothing ever invokes the closures in `st.fns`,
`data` keeps its zero value (a nil slice) on every completing path. -/
def Slice {T : Type} (st : StreamState T) : Outcome (List T × StreamState T) :=
  let st1 := { st with fns := st.fns ++ [RegFn.sliceCollect] }
  match runStream st1 with
  | Outcome.ok st2 => Outcome.ok ([], st2)
  | Outcome.panicked m => Outcome.panicked m
  | Outcome.blocked => Outcome.blocked

/-- `Count` (stream.go lines 338-344): run the pipeline, then count the
live flags of the tracker. -/
def Count {T : Type} (st : StreamState T) : Outcome (Nat × StreamState T) :=
  match runStream st with
  | Outcome.ok st2 => Outcome.ok (st2.bm.CountOnes, st2)
  | Outcome.panicked m => Outcome.panicked m
  | Outcome.blocked => Outcome.blocked

/-- `None` (stream.go lines 334-336): `Count() == 0`. -/
def None {T : Type} (st : StreamState T) : Outcome (Bool × StreamState T) :=
  match Count st with
  | Outcome.ok (n, st2) => Outcome.ok (n == 0, st2)
  | Outcome.panicked m => Outcome.panicked m
  | Outcome.blocked => Outcome.blocked

/-- `Any` (stream.go lines 330-332): `!None()`. -/
def Any {T : Type} (st : StreamState T) : Outcome (Bool × StreamState T) :=
  match None st with
  | Outcome.ok (b, st2) => Outcome.ok (!b, st2)
  | Outcome.panicked m => Outcome.panicked m
  | Outcome.blocked => Outcome.blocked

/-- `Sum` (stream.go lines 346-363): a nil combine function
short-circuits to zero before the pipeline is touched; otherwise a fold
closure is appended to the write-only `fns` list and the pipeline runs,
so the local accumulator `s` keeps its zero value on every completing
path. -/
def Sum {T : Type} (st : StreamState T) (f : Option (Int → T → Int)) :
    Outcome (Int × StreamState T) :=
  match f with
  | Option.none => Outcome.ok (0, st)
  | Option.some g =>
    let st1 := { st with fns := st.fns ++ [RegFn.sumFold g] }
    match runStream st1 with
    | Outcome.ok st2 => Outcome.ok (0, st2)
    | Outcome.panicked m => Outcome.panicked m
    | Outcome.blocked => Outcome.blocked

/-- `Contains` (stream.go lines 366-373): a plain scan of `st.dt` with
`eq(st.dt[i], item)`; it never calls `run`, reads no tracker state and
mutates nothing. -/
def Contains {T : Type} (st : StreamState T) (item : T) (eq : T → T → Bool) : Bool :=
  st.dt.any (fun x => eq x item)

/-- A dequeued task as seen by the barrier branch of the worker loop:
the operation's identity token and the task's data window. -/
structure SyncTask (T : Type) where
  opId : Nat
  dt : List T

/-- The barrier (sync) branch of the worker loop (stream.go lines
272-287): after taking the barrier lock and waiting on the task's wait
group, the worker tests the applied-identities map and — per the source
— hits `continue` (skipping the transform and recording nothing) when
the identity is NOT yet present, executing `t.op.Do(t.dt, t.bm)` over the
task's own window only when the identity is already present.  The result
is the data the transform was executed over (if at all) and the resulting
applied set. -/
def workerSyncStep {T : Type} (done : List Nat) (t : SyncTask T) :
    Option (List T) × List Nat :=
  if done.contains t.opId then (Option.some t.dt, done)
  else (Option.none, done)

/-- The terminal operations of the public surface, used to state results
uniformly across terminals. -/
inductive TerminalOp (T : Type) where
  | sliceOp
  | anyOp
  | noneOp
  | countOp
  | sumOp (f : Option (Int → T → Int))
  | containsOp (item : T) (eq : T → T → Bool)

/-- The value returned by a terminal operation. -/
inductive TermResult (T : Type) where
  | ofList (l : List T)
  | ofBool (b : Bool)
  | ofNat (n : Nat)
  | ofInt (i : Int)

/-- Dispatch a terminal call on a stream, returning its value and the
stream state after the call. -/
def runTerminal {T : Type} :
    TerminalOp T → StreamState T → Outcome (TermResult T × StreamState T)
  | TerminalOp.sliceOp, st =>
    match Slice st with
    | Outcome.ok (l, st2) => Outcome.ok (TermResult.ofList l, st2)
    | Outcome.panicked m => Outcome.panicked m
    | Outcome.blocked => Outcome.blocked
  | TerminalOp.anyOp, st =>
    match Any st with
    | Outcome.ok (b, st2) => Outcome.ok (TermResult.ofBool b, st2)
    | Outcome.panicked m => Outcome.panicked m
    | Outcome.blocked => Outcome.blocked
  | TerminalOp.noneOp, st =>
    match None st with
    | Outcome.ok (b, st2) => Outcome.ok (TermResult.ofBool b, st2)
    | Outcome.panicked m => Outcome.panicked m
    | Outcome.blocked => Outcome.blocked
  | TerminalOp.countOp, st =>
    match Count st with
    | Outcome.ok (n, st2) => Outcome.ok (TermResult.ofNat n, st2)
    | Outcome.panicked m => Outcome.panicked m
    | Outcome.blocked => Outcome.blocked
  | TerminalOp.sumOp f, st =>
    match Sum st f with
    | Outcome.ok (i, st2) => Outcome.ok (TermResult.ofInt i, st2)
    | Outcome.panicked m => Outcome.panicked m
    | Outcome.blocked => Outcome.blocked
  | TerminalOp.containsOp item eq, st =>
    Outcome.ok (TermResult.ofBool (Contains st item eq), st)

/-- One call of the method-chaining registration surface (stream.go
lines 103-213), with its captured parameters. -/
inductive RegCall (T : Type) where
  | skipC (n : Nat)
  | trimC (n : Nat)
  | mapC (f : T → T)
  | reduceC (f : T → T → T)
  | filterC (p : T → Bool)
  | sortedC (less : T → T → Bool)
  | splitC (sp : T → List T)
  | goC (n : Nat)

/-- Apply one registration call to a stream; each case delegates to the
embedding of the source method of the same name. -/
def applyReg {T : Type} : RegCall T → StreamState T → StreamState T
  | RegCall.skipC n, st => Skip n st
  | RegCall.trimC n, st => Trim n st
  | RegCall.mapC f, st => Map f st
  | RegCall.reduceC f, st => Reduce f st
  | RegCall.filterC p, st => Filter p st
  | RegCall.sortedC less, st => Sorted less st
  | RegCall.splitC sp, st => Split sp st
  | RegCall.goC n, st => Go n st

/-- A stream built from input `data` by a chain of registration calls,
before any terminal call. -/
def buildStream {T : Type} (data : List T) (calls : List (RegCall T)) : StreamState T :=
  calls.foldl (fun st c => applyReg c st) (Stream data)

/-- A heap of stream cells, indexed by reference.  In Go every method of
`stream[T]` has a pointer receiver and `return st` returns that very
pointer; the heap makes this reference identity explicit. -/
structure StreamHeap (T : Type) where
  cells : List (StreamState T)

/-- Update the cell at one index in place, leaving the list untouched
when the index is out of range. -/
def modifyAt {α : Type} : List α → Nat → (α → α) → List α
  | [], _, _ => []
  | a :: l, 0, f => f a :: l
  | a :: l, Nat.succ n, f => a :: modifyAt l n f

/-- `Stream(data)` at the heap level: the only place a new stream cell is
allocated; returns a fresh reference. -/
def allocStream {T : Type} (data : List T) (hp : StreamHeap T) : Nat × StreamHeap T :=
  (hp.cells.length, ⟨hp.cells ++ [Stream data]⟩)

/-- A registration call at the heap level: mutate the receiver's cell in
place and return the receiver's own reference (the source methods all end
in `return st`). -/
def regCallRef {T : Type} (c : RegCall T) (r : Nat) (hp : StreamHeap T) :
    Nat × StreamHeap T :=
  (r, ⟨modifyAt hp.cells r (applyReg c)⟩)

/-- A concrete stream used in statements below: the empty input with one
`Map` stage registered — the one configuration on which a terminal call
completes (the `ops` list is non-empty and the compacted buffer is
empty, so `addTasks` neither faults in `nextOp` nor reaches a send on
the nil channel). -/
def svInit : StreamState Int :=
  Map (fun x => x) (Stream [])

/-- The state of `svInit` after its first completing terminal call. -/
def svAfter : StreamState Int :=
  match runTerminal TerminalOp.countOp svInit with
  | Outcome.ok p => p.2
  | Outcome.panicked _ => svInit
  | Outcome.blocked => svInit

/- ------------------------------------------------------------------ -/
/- Theorems.                                                           -/
/- ------------------------------------------------------------------ -/

theorem applyReg_dt {T : Type} (c : RegCall T) (st : StreamState T) :
    (applyReg c st).dt = st.dt := by
  cases c <;> rfl

theorem applyReg_ran {T : Type} (c : RegCall T) (st : StreamState T) :
    (applyReg c st).ran = st.ran := by
  cases c <;> rfl

theorem applyReg_runs {T : Type} (c : RegCall T) (st : StreamState T) :
    (applyReg c st).runs = st.runs := by
  cases c <;> rfl

theorem foldl_applyReg_dt {T : Type} (calls : List (RegCall T)) :
    ∀ st : StreamState T,
      (calls.foldl (fun s c => applyReg c s) st).dt = st.dt := by
  induction calls with
  | nil => intro st; rfl
  | cons c cs ih =>
    intro st
    simpa [List.foldl, applyReg_dt] using ih (applyReg c st)

theorem buildStream_dt {T : Type} (data : List T) (calls : List (RegCall T)) :
    (buildStream data calls).dt = data := by
  unfold buildStream
  rw [foldl_applyReg_dt]
  rfl

theorem runStream_of_ran {T : Type} {st : StreamState T} (h : st.ran = true) :
    runStream st = Outcome.ok st := by
  simp [runStream, h]

theorem runStream_ok_facts {T : Type} {st s : StreamState T}
    (h : runStream st = Outcome.ok s) :
    s.ran = true ∧ s.runs ≤ st.runs + 1
      ∧ (st.ran = false → s.runs = st.runs + 1) := by
  unfold runStream at h
  split at h
  · rename_i hr
    injection h with h2
    subst h2
    refine ⟨hr, Nat.le_succ _, ?_⟩
    intro hf
    rw [hf] at hr
    exact absurd hr (by decide)
  · simp only [addTasks] at h
    split at h
    · exact Outcome.noConfusion h
    · split at h
      · split at h
        · injection h with h2
          subst h2
          exact ⟨rfl, Nat.le_refl _, fun _ => rfl⟩
        · exact Outcome.noConfusion h
      · exact Outcome.noConfusion h

theorem sortedComparator_self {T : Type} (less : T → T → Bool) (dt : List T)
    (d : T) (i j : Nat) (h : ∀ a, less a a = false) :
    sortedComparator less dt d i j = false :=
  h _

theorem modifyAt_length {α : Type} (l : List α) (i : Nat) (f : α → α) :
    (modifyAt l i f).length = l.length := by
  induction l generalizing i with
  | nil => rfl
  | cons a l ih =>
    cases i with
    | zero => simp [modifyAt]
    | succ n => simp [modifyAt, ih]

theorem get?_modifyAt {α : Type} (l : List α) (i : Nat) (f : α → α) :
    (modifyAt l i f)[i]? = (l[i]?).map f := by
  induction l generalizing i with
  | nil => simp [modifyAt]
  | cons a l ih =>
    cases i with
    | zero => simp [modifyAt]
    | succ n => simp [modifyAt, ih]

/-- Claim C1: registering `Filter(p)` and then calling `Slice()` is
claimed to return exactly the elements of the input satisfying `p` in
order.  On the code it does not: `Filter` registers its closure on the
never-read `fns` list, so no operation is registered, and `Slice`'s call
to `run` faults in `nextOp` with an index-out-of-range error on the
empty `ops` slice.  Evaluated at input `[1, 2, 3]` with predicate
`1 < x`, where the claim expects `[2, 3]`. -/
theorem filter_then_slice_faults :
    Slice (Filter (fun x : Int => decide (1 < x)) (Stream [1, 2, 3]))
      = Outcome.panicked "index out of range" := rfl

/-- Claim C2: registering `Sorted(less)` and then calling `Slice()` is
claimed to return a sorted permutation of the input, established without
ever comparing an element against itself.  On the code, at input
`[2, 1]` with `less` the strict order on integers, `Slice` faults in
`nextOp` (the sort closures sit on the never-read `fns` list and no
operation exists); moreover the comparator the sort closures pass to
`sort.Slice` evaluates `less` on the element at index `j` against
itself, so even between the out-of-order indices 0 and 1 it returns
`false`. -/
theorem sorted_then_slice_faults_and_self_compare :
    Slice (Sorted (fun a b : Int => decide (a < b)) (Stream [2, 1]))
      = Outcome.panicked "index out of range"
    ∧ sortedComparator (fun a b : Int => decide (a < b)) [2, 1] 0 0 1 = false :=
  ⟨rfl, rfl⟩

/-- Claim C3: the fold terminal `Sum(f)` is claimed to return the
sequential left-fold of `f` over the input from the zero seed.  On the
code, at input `[1, 2, 3]` with integer addition, where the claim
expects 6, `Sum` appends its fold closure to the never-read `fns` list
and `run` faults in `nextOp` on the empty `ops` slice. -/
theorem sum_fold_faults :
    Sum (Stream ([1, 2, 3] : List Int)) (Option.some (fun acc x => acc + x))
      = Outcome.panicked "index out of range" := rfl

/-- Claim C4: a worker dequeuing a barrier stage is claimed to execute
the transform exactly when the stage's identity is not yet in the
applied-identities set, recording it on execution.  The code's test is
inverted: with the applied set empty (as it always is — the `done` map
is never initialized or populated), the worker skips the transform and
records nothing; and when the identity is already present the transform
is executed (over the task's own chunk) even though it was already
applied. -/
theorem barrier_skips_unrecorded_identity :
    workerSyncStep [] (⟨0, [1, 2, 3]⟩ : SyncTask Int) = (Option.none, [])
    ∧ workerSyncStep [7] (⟨7, [4, 5]⟩ : SyncTask Int)
        = (Option.some [4, 5], [7]) :=
  ⟨rfl, rfl⟩

/-- Claim C5: whenever a terminal call on a stream completes with a
value, calling the same terminal again on the resulting stream completes
with the identical value, and the pipeline body guarded by `onceRun` is
not executed again (the `runs` counter is unchanged); the first call
executed it exactly once if it flipped the gate. -/
theorem terminal_second_call_cached {T : Type} (t : TerminalOp T)
    (st st2 : StreamState T) (r : TermResult T)
    (h : runTerminal t st = Outcome.ok (r, st2)) :
    (∃ st3, runTerminal t st2 = Outcome.ok (r, st3)
        ∧ st3.runs = st2.runs ∧ st3.ran = st2.ran)
    ∧ st2.runs ≤ st.runs + 1
    ∧ (st.ran = false → st2.ran = true → st2.runs = st.runs + 1) := by
  cases t with
  | sliceOp =>
    cases hrs : runStream { st with fns := st.fns ++ [RegFn.sliceCollect] } with
    | ok s =>
      simp only [runTerminal, Slice, hrs] at h
      simp only [Outcome.ok.injEq, Prod.mk.injEq] at h
      obtain ⟨hr2, hs2⟩ := h
      subst hs2
      subst hr2
      have hf := runStream_ok_facts hrs
      have hran2 : ({ s with fns := s.fns ++ [RegFn.sliceCollect] } :
          StreamState T).ran = true := hf.1
      refine ⟨⟨{ s with fns := s.fns ++ [RegFn.sliceCollect] }, ?_, rfl, rfl⟩,
        hf.2.1, fun h1 _ => hf.2.2 h1⟩
      simp [runTerminal, Slice, runStream_of_ran hran2]
    | panicked m => simp [runTerminal, Slice, hrs] at h
    | blocked => simp [runTerminal, Slice, hrs] at h
  | anyOp =>
    cases hrs : runStream st with
    | ok s =>
      simp only [runTerminal, Any, None, Count, hrs] at h
      simp only [Outcome.ok.injEq, Prod.mk.injEq] at h
      obtain ⟨hr2, hs2⟩ := h
      subst hs2
      subst hr2
      have hf := runStream_ok_facts hrs
      refine ⟨⟨s, ?_, rfl, rfl⟩, hf.2.1, fun h1 _ => hf.2.2 h1⟩
      simp [runTerminal, Any, None, Count, runStream_of_ran hf.1]
    | panicked m => simp [runTerminal, Any, None, Count, hrs] at h
    | blocked => simp [runTerminal, Any, None, Count, hrs] at h
  | noneOp =>
    cases hrs : runStream st with
    | ok s =>
      simp only [runTerminal, None, Count, hrs] at h
      simp only [Outcome.ok.injEq, Prod.mk.injEq] at h
      obtain ⟨hr2, hs2⟩ := h
      subst hs2
      subst hr2
      have hf := runStream_ok_facts hrs
      refine ⟨⟨s, ?_, rfl, rfl⟩, hf.2.1, fun h1 _ => hf.2.2 h1⟩
      simp [runTerminal, None, Count, runStream_of_ran hf.1]
    | panicked m => simp [runTerminal, None, Count, hrs] at h
    | blocked => simp [runTerminal, None, Count, hrs] at h
  | countOp =>
    cases hrs : runStream st with
    | ok s =>
      simp only [runTerminal, Count, hrs] at h
      simp only [Outcome.ok.injEq, Prod.mk.injEq] at h
      obtain ⟨hr2, hs2⟩ := h
      subst hs2
      subst hr2
      have hf := runStream_ok_facts hrs
      refine ⟨⟨s, ?_, rfl, rfl⟩, hf.2.1, fun h1 _ => hf.2.2 h1⟩
      simp [runTerminal, Count, runStream_of_ran hf.1]
    | panicked m => simp [runTerminal, Count, hrs] at h
    | blocked => simp [runTerminal, Count, hrs] at h
  | sumOp f =>
    cases f with
    | none =>
      simp only [runTerminal, Sum] at h
      simp only [Outcome.ok.injEq, Prod.mk.injEq] at h
      obtain ⟨hr2, hs2⟩ := h
      subst hs2
      subst hr2
      refine ⟨⟨st, by simp [runTerminal, Sum], rfl, rfl⟩, Nat.le_succ _, ?_⟩
      intro h1 h2
      rw [h1] at h2
      exact absurd h2 (by decide)
    | some g =>
      cases hrs : runStream { st with fns := st.fns ++ [RegFn.sumFold g] } with
      | ok s =>
        simp only [runTerminal, Sum, hrs] at h
        simp only [Outcome.ok.injEq, Prod.mk.injEq] at h
        obtain ⟨hr2, hs2⟩ := h
        subst hs2
        subst hr2
        have hf := runStream_ok_facts hrs
        have hran2 : ({ s with fns := s.fns ++ [RegFn.sumFold g] } :
            StreamState T).ran = true := hf.1
        refine ⟨⟨{ s with fns := s.fns ++ [RegFn.sumFold g] }, ?_, rfl, rfl⟩,
          hf.2.1, fun h1 _ => hf.2.2 h1⟩
        simp [runTerminal, Sum, runStream_of_ran hran2]
      | panicked m => simp [runTerminal, Sum, hrs] at h
      | blocked => simp [runTerminal, Sum, hrs] at h
  | containsOp item eq =>
    simp only [runTerminal] at h
    simp only [Outcome.ok.injEq, Prod.mk.injEq] at h
    obtain ⟨hr2, hs2⟩ := h
    subst hs2
    subst hr2
    refine ⟨⟨st, by simp [runTerminal], rfl, rfl⟩, Nat.le_succ _, ?_⟩
    intro h1 h2
    rw [h1] at h2
    exact absurd h2 (by decide)

/-- Witness for claim C5: the empty input with one `Map` stage, whose
first `Count` call completes with value 0; the theorem instantiated
there. -/
theorem terminal_second_call_cached_witness :
    (∃ st3, runTerminal TerminalOp.countOp svAfter
        = Outcome.ok (TermResult.ofNat 0, st3)
        ∧ st3.runs = svAfter.runs ∧ st3.ran = svAfter.ran)
    ∧ svAfter.runs ≤ svInit.runs + 1
    ∧ (svInit.ran = false → svAfter.ran = true →
        svAfter.runs = svInit.runs + 1) :=
  terminal_second_call_cached TerminalOp.countOp svInit svAfter
    (TermResult.ofNat 0) rfl

/-- Claim C6: on the empty input every terminal is claimed to return the
zero-equivalent result without faulting.  On the code every
pipeline-running terminal (`Slice`, `Any`, `None`, `Count`, `Sum` with a
combine function) faults: `run` reaches `nextOp`, which indexes the
empty `ops` slice out of range.  Only `Contains` — which never runs the
pipeline — returns its zero value. -/
theorem empty_stream_terminals_fault :
    Count (Stream ([] : List Int)) = Outcome.panicked "index out of range"
    ∧ Slice (Stream ([] : List Int)) = Outcome.panicked "index out of range"
    ∧ Any (Stream ([] : List Int)) = Outcome.panicked "index out of range"
    ∧ None (Stream ([] : List Int)) = Outcome.panicked "index out of range"
    ∧ Sum (Stream ([] : List Int)) (Option.some (fun acc x => acc + x))
        = Outcome.panicked "index out of range"
    ∧ Contains (Stream ([] : List Int)) 0 (fun a b => a == b) = false :=
  ⟨rfl, rfl, rfl, rfl, rfl, rfl⟩

/-- Claim C7: `Go(n)` is claimed to set the worker count for the stages
declared after it.  On the code `Go`'s body is `return st`: the argument
is discarded, the stream is returned completely unchanged, and the
worker count stays at the constructor's value 1. -/
theorem go_ignores_worker_count :
    Go 5 (Stream ([1, 2, 3] : List Int)) = Stream [1, 2, 3]
    ∧ (Go 5 (Stream ([1, 2, 3] : List Int))).wrksCnt = 1 :=
  ⟨rfl, rfl⟩

/-- Claim C8: for a stream built from input `data` by any chain of
registration calls, `Contains(item, eq)` returns `true` exactly when
some element of the original input copy satisfies `eq` with `item`; the
stream state is returned untouched (no pipeline execution), and no
registered stage or tracker state influences the answer. -/
theorem contains_reads_original_input {T : Type} (data : List T)
    (calls : List (RegCall T)) (item : T) (eq : T → T → Bool) :
    runTerminal (TerminalOp.containsOp item eq) (buildStream data calls)
      = Outcome.ok (TermResult.ofBool (data.any (fun x => eq x item)),
          buildStream data calls) := by
  have hdt : (buildStream data calls).dt = data := buildStream_dt data calls
  simp [runTerminal, Contains, hdt]

/-- Claim C9: registering the `Split` stage is claimed to fail fast with
a "not supported" signal.  On the code `Split` is a silent no-op: it
returns the receiver unchanged for every argument and every stream, with
no error, panic or registration of any kind — exactly the
identity-transformation behaviour the claim rules out. -/
theorem split_silent_identity (sp : Int → List Int) (st : StreamState Int) :
    Split sp st = st := rfl

/-- Claim C10: every registration and configuration call returns the
very stream reference it was invoked on, mutates that cell in place
(applying the call's own effect), and allocates nothing; hence two
pipelines branching from one saved reference share one stage list — two
successive calls through the same saved reference accumulate both
effects in the single shared cell. -/
theorem registration_returns_receiver {T : Type} (c : RegCall T) (r : Nat)
    (hp : StreamHeap T) :
    (regCallRef c r hp).1 = r
    ∧ ((regCallRef c r hp).2).cells.length = hp.cells.length
    ∧ ((regCallRef c r hp).2).cells[r]? = (hp.cells[r]?).map (applyReg c)
    ∧ ∀ c2 : RegCall T,
        ((regCallRef c2 r (regCallRef c r hp).2).2).cells[r]?
          = (hp.cells[r]?).map (fun s => applyReg c2 (applyReg c s)) := by
  refine ⟨rfl, modifyAt_length _ _ _, get?_modifyAt _ _ _, ?_⟩
  intro c2
  show (modifyAt (modifyAt hp.cells r (applyReg c)) r (applyReg c2))[r]? = _
  rw [get?_modifyAt, get?_modifyAt, Option.map_map]
  rfl

end Lambda
